import Mathlib

/-!
# Verification of the sqltui core against its specification

Shallow embedding of the sqltui repository's core logic:
* the codepoint-addressed editor buffer (`src/ui/components/input.rs`),
* the context-aware completion classifier (`src/ui/app.rs`, `update_context_suggestions`),
* cell-value coercion and result-set shaping (`src/db/queries.rs`, `src/db/adapters/mysql.rs`),
* SQL command routing and `USE` handling (`src/ui/app.rs`).

Rust `String`s are modelled as `List Char` (sequences of Unicode scalar values).
The source manipulates byte offsets, but every byte offset it uses is produced by
`byte_index_for_char_pos`, which maps a codepoint position to the corresponding
codepoint boundary (clamped to the end of the string); at the codepoint level this
is `min pos length`, so all string edits are faithfully expressed as codepoint-level
`take`/`drop` splices.
-/

set_option autoImplicit false

namespace SqlTui

/-! ## Models of Rust `char` predicates

`rustIsWhitespace` is Rust's `char::is_whitespace`, i.e. the Unicode `White_Space`
property, written out as the explicit (finite) set of scalar values.
`isAsciiWhitespace` is `u8::is_ascii_whitespace` (space, tab, newline, carriage
return, form feed). -/

def rustIsWhitespace (c : Char) : Bool :=
  c.toNat = 0x09 || c.toNat = 0x0A || c.toNat = 0x0B || c.toNat = 0x0C ||
  c.toNat = 0x0D || c.toNat = 0x20 || c.toNat = 0x85 || c.toNat = 0xA0 ||
  c.toNat = 0x1680 || (0x2000 ≤ c.toNat && c.toNat ≤ 0x200A) ||
  c.toNat = 0x2028 || c.toNat = 0x2029 || c.toNat = 0x202F ||
  c.toNat = 0x205F || c.toNat = 0x3000

def isAsciiWhitespace (c : Char) : Bool :=
  c.toNat = 0x20 || c.toNat = 0x09 || c.toNat = 0x0A || c.toNat = 0x0C || c.toNat = 0x0D

/-- The `is_word_char` test from `src/ui/components/input.rs` (line 462):
ASCII alphanumeric, underscore, dollar, or dot. -/
def is_word_char (c : Char) : Bool :=
  (c.isUpper || c.isLower || c.isDigit) || c = '_' || c = '$' || c = '.'

/-- Token character test of `App::update_context_suggestions`
(`src/ui/app.rs` line 527): Rust `char::is_alphanumeric`, underscore, dollar, or dot.
`char::is_alphanumeric` is modelled ASCII-exactly (every input the claims evaluate
is ASCII; non-ASCII Unicode alphanumerics are outside the model). -/
def appTokenChar (c : Char) : Bool :=
  (c.isUpper || c.isLower || c.isDigit) || c = '_' || c = '$' || c = '.'

/-- ASCII model of Rust `str::to_uppercase` (exact on ASCII input). -/
def asciiToUpper (l : List Char) : List Char := l.map Char.toUpper

/-- ASCII model of Rust `str::to_lowercase` (exact on ASCII input). -/
def asciiToLower (l : List Char) : List Char := l.map Char.toLower

/-! ## The editor buffer (`Input` in `src/ui/components/input.rs`)

Only the text and the cursor are modelled; the history and suggestion-popup fields
do not participate in any buffer-editing claim. -/

structure Input where
  input : List Char
  cursor_pos : Nat
deriving DecidableEq, Repr

/-- Models `Input::byte_index_for_char_pos` (lines 330-338) walks `char_indices` and
returns the byte offset of codepoint `char_pos`, or the total byte length when
`char_pos` is past the last codepoint.  At the codepoint level the returned
offset is the boundary of codepoint `min char_pos (number of codepoints)`. -/
def charIndexForCharPos (text : List Char) (char_pos : Nat) : Nat :=
  min char_pos text.length

/-- Models `Input::new` (text and cursor fields). -/
def Input.new : Input := { input := [], cursor_pos := 0 }

/-- Models `Input::add_char` (lines 59-63): insert `ch` at the byte index of the cursor,
then advance the cursor by one codepoint. -/
def Input.add_char (s : Input) (ch : Char) : Input :=
  let byte_idx := charIndexForCharPos s.input s.cursor_pos
  { input := s.input.take byte_idx ++ ch :: s.input.drop byte_idx,
    cursor_pos := s.cursor_pos + 1 }

/-- Models `Input::delete_char` (lines 65-72): remove the codepoint before the cursor. -/
def Input.delete_char (s : Input) : Input :=
  if s.cursor_pos = 0 then s else
  let prev_char_pos := s.cursor_pos - 1
  let start := charIndexForCharPos s.input prev_char_pos
  let stop := charIndexForCharPos s.input s.cursor_pos
  { input := s.input.take start ++ s.input.drop stop,
    cursor_pos := prev_char_pos }

/-- Models `Input::clear` (lines 74-77). -/
def Input.clear (_s : Input) : Input := { input := [], cursor_pos := 0 }

/-- Models `Input::move_cursor_start` (line 298). -/
def Input.move_cursor_start (s : Input) : Input := { s with cursor_pos := 0 }

/-- Models `Input::move_cursor_end` (line 299). -/
def Input.move_cursor_end (s : Input) : Input := { s with cursor_pos := s.input.length }

/-- Models `Input::move_cursor_left` (lines 300-302). -/
def Input.move_cursor_left (s : Input) : Input :=
  if 0 < s.cursor_pos then { s with cursor_pos := s.cursor_pos - 1 } else s

/-- Models `Input::move_cursor_right` (lines 303-306). -/
def Input.move_cursor_right (s : Input) : Input :=
  if s.cursor_pos < s.input.length then { s with cursor_pos := s.cursor_pos + 1 } else s

/-- A backward scan `while i > 0 && p(chars[i-1]) { i -= 1; }`.
The index is always in bounds when the scan starts at a position `≤ chars.length`
(which the cursor invariant guarantees at every call site); the `getD` default is
the NUL character, which satisfies none of the predicates used. -/
def skipBackWhile (p : Char → Bool) (chars : List Char) : Nat → Nat
  | 0 => 0
  | i + 1 => if p (chars.getD i '\x00') then skipBackWhile p chars i else i + 1

/-- A forward scan `while i < n && p(chars[i]) { i += 1; }`, driven by explicit
fuel so that the recursion is structural (`chars.length - i` fuel always
suffices: the loop stops as soon as `i` reaches `chars.length`). -/
def skipForwardWhileAux (p : Char → Bool) (chars : List Char) : Nat → Nat → Nat
  | 0, i => i
  | fuel + 1, i =>
    if i < chars.length then
      if p (chars.getD i '\x00') then skipForwardWhileAux p chars fuel (i + 1) else i
    else i

/-- A forward scan `while i < n && p(chars[i]) { i += 1; }`. -/
def skipForwardWhile (p : Char → Bool) (chars : List Char) (i : Nat) : Nat :=
  skipForwardWhileAux p chars (chars.length - i) i

/-- Models `Input::move_word_left` (lines 308-317): skip whitespace leftwards, then skip
word characters leftwards. -/
def Input.move_word_left (s : Input) : Input :=
  if s.cursor_pos = 0 then s else
  let chars := s.input
  let i := skipBackWhile rustIsWhitespace chars s.cursor_pos
  let i := skipBackWhile is_word_char chars i
  { s with cursor_pos := i }

/-- Models `Input::move_word_right` (lines 319-328): skip word characters rightwards,
then skip whitespace rightwards (note the order — the opposite of
`move_word_left`). -/
def Input.move_word_right (s : Input) : Input :=
  let chars := s.input
  let i := skipForwardWhile is_word_char chars s.cursor_pos
  let i := skipForwardWhile rustIsWhitespace chars i
  { s with cursor_pos := i }

/-- Models `Input::apply_suggestion` (lines 211-232): replace the word-character run
ending at the cursor with `suggestion`, put the cursor after it, and append one
space (advancing the cursor over it) unless the character after the new cursor
is whitespace. -/
def Input.apply_suggestion (s : Input) (suggestion : List Char) : Input :=
  let chars := s.input
  let start := skipBackWhile is_word_char chars s.cursor_pos
  let start_byte := charIndexForCharPos s.input start
  let end_byte := charIndexForCharPos s.input s.cursor_pos
  let newInput := s.input.take start_byte ++ suggestion ++ s.input.drop end_byte
  let newCursor := start + suggestion.length
  let after_byte := charIndexForCharPos newInput newCursor
  let after_char := (newInput.drop after_byte).head?
  if !(match after_char with | some c => rustIsWhitespace c | none => false) then
    let bi := charIndexForCharPos newInput newCursor
    { input := newInput.take bi ++ ' ' :: newInput.drop bi, cursor_pos := newCursor + 1 }
  else
    { input := newInput, cursor_pos := newCursor }

/-- The buffer operations named by the cursor-invariant claim. -/
inductive EditOp
  | addChar (ch : Char)
  | deleteChar
  | clearBuf
  | moveStart
  | moveEnd
  | moveLeft
  | moveRight
  | wordLeft
  | wordRight
  | applySugg (suggestion : List Char)
deriving DecidableEq, Repr

def applyEditOp (s : Input) : EditOp → Input
  | .addChar ch => s.add_char ch
  | .deleteChar => s.delete_char
  | .clearBuf => s.clear
  | .moveStart => s.move_cursor_start
  | .moveEnd => s.move_cursor_end
  | .moveLeft => s.move_cursor_left
  | .moveRight => s.move_cursor_right
  | .wordLeft => s.move_word_left
  | .wordRight => s.move_word_right
  | .applySugg sug => s.apply_suggestion sug

/-- Run a sequence of editor operations starting from the empty buffer. -/
def runEditOps (ops : List EditOp) : Input :=
  ops.foldl applyEditOp Input.new

/-- The cursor invariant: the cursor is a codepoint offset into the text. -/
def cursorInv (s : Input) : Prop := s.cursor_pos ≤ s.input.length

instance (s : Input) : Decidable (cursorInv s) :=
  inferInstanceAs (Decidable (s.cursor_pos ≤ s.input.length))

/-! ## Lemmas about the word scans -/

theorem skipBackWhile_le (p : Char → Bool) (chars : List Char) :
    ∀ i, skipBackWhile p chars i ≤ i
  | 0 => Nat.le_refl 0
  | i + 1 => by
    rw [skipBackWhile]
    split
    · exact Nat.le_trans (skipBackWhile_le p chars i) (Nat.le_succ i)
    · exact Nat.le_refl _

theorem skipForwardWhileAux_le (p : Char → Bool) (chars : List Char) :
    ∀ fuel i, i ≤ chars.length → skipForwardWhileAux p chars fuel i ≤ chars.length := by
  intro fuel
  induction fuel with
  | zero => intro i h; exact h
  | succ fuel ih =>
    intro i h
    rw [skipForwardWhileAux]
    split
    · split
      · exact ih (i + 1) (by omega)
      · exact h
    · exact h

theorem skipForwardWhileAux_ge (p : Char → Bool) (chars : List Char) :
    ∀ fuel i, i ≤ skipForwardWhileAux p chars fuel i := by
  intro fuel
  induction fuel with
  | zero => intro i; exact Nat.le_refl i
  | succ fuel ih =>
    intro i
    rw [skipForwardWhileAux]
    split
    · split
      · exact Nat.le_trans (Nat.le_succ i) (ih (i + 1))
      · exact Nat.le_refl i
    · exact Nat.le_refl i

theorem skipForwardWhile_le (p : Char → Bool) (chars : List Char) (i : Nat)
    (h : i ≤ chars.length) : skipForwardWhile p chars i ≤ chars.length :=
  skipForwardWhileAux_le p chars _ i h

theorem skipForwardWhile_ge (p : Char → Bool) (chars : List Char) (i : Nat) :
    i ≤ skipForwardWhile p chars i :=
  skipForwardWhileAux_ge p chars _ i

theorem skipBackWhile_run (p : Char → Bool) (chars : List Char) (i : Nat) :
    ∀ j, skipBackWhile p chars i ≤ j → j < i → p (chars.getD j '\x00') = true := by
  induction i with
  | zero => intro j h1 h2; omega
  | succ i ih =>
    intro j h1 h2
    rw [skipBackWhile] at h1
    split at h1
    · rcases Nat.lt_or_ge j i with hlt | hge
      · exact ih j h1 hlt
      · have hj : j = i := by omega
        subst hj
        assumption
    · omega

theorem skipBackWhile_stop (p : Char → Bool) (chars : List Char) (i : Nat) :
    skipBackWhile p chars i = 0 ∨
      p (chars.getD (skipBackWhile p chars i - 1) '\x00') = false := by
  induction i with
  | zero => left; rfl
  | succ i ih =>
    rw [skipBackWhile]
    split
    · exact ih
    · next hp => right; simpa using hp

theorem skipForwardWhileAux_run (p : Char → Bool) (chars : List Char) :
    ∀ fuel i j, i ≤ j → j < skipForwardWhileAux p chars fuel i →
      p (chars.getD j '\x00') = true := by
  intro fuel
  induction fuel with
  | zero => intro i j h1 h2; rw [skipForwardWhileAux] at h2; omega
  | succ fuel ih =>
    intro i j h1 h2
    rw [skipForwardWhileAux] at h2
    split at h2
    · split at h2
      · next hp =>
        rcases Nat.eq_or_lt_of_le h1 with rfl | hlt
        · exact hp
        · exact ih (i + 1) j hlt h2
      · omega
    · omega

theorem skipForwardWhileAux_stop (p : Char → Bool) (chars : List Char) :
    ∀ fuel i, i ≤ chars.length → chars.length - i ≤ fuel →
      skipForwardWhileAux p chars fuel i = chars.length ∨
        p (chars.getD (skipForwardWhileAux p chars fuel i) '\x00') = false := by
  intro fuel
  induction fuel with
  | zero => intro i h hf; left; rw [skipForwardWhileAux]; omega
  | succ fuel ih =>
    intro i h hf
    rw [skipForwardWhileAux]
    split
    · split
      · exact ih (i + 1) (by omega) (by omega)
      · next hp => right; simpa using hp
    · left; omega

theorem skipForwardWhile_run (p : Char → Bool) (chars : List Char) (i : Nat) :
    ∀ j, i ≤ j → j < skipForwardWhile p chars i → p (chars.getD j '\x00') = true :=
  fun j h1 h2 => skipForwardWhileAux_run p chars _ i j h1 h2

theorem skipForwardWhile_stop (p : Char → Bool) (chars : List Char) (i : Nat)
    (h : i ≤ chars.length) :
    skipForwardWhile p chars i = chars.length ∨
      p (chars.getD (skipForwardWhile p chars i) '\x00') = false :=
  skipForwardWhileAux_stop p chars _ i h (Nat.le_refl _)

/-- Predicate: `stop` is the left end of a maximal run of `p`-characters ending (exclusively)
at `start`, scanning leftwards: every character in `[stop, start)` satisfies `p`
and the run cannot be extended one character further left. -/
def isMaxRunBack (p : Char → Bool) (chars : List Char) (start stop : Nat) : Prop :=
  stop ≤ start ∧
    (∀ j, stop ≤ j → j < start → p (chars.getD j '\x00') = true) ∧
    (stop = 0 ∨ p (chars.getD (stop - 1) '\x00') = false)

/-- Predicate: `stop` is the right end of a maximal run of `p`-characters beginning at
`start`, scanning rightwards. -/
def isMaxRunFwd (p : Char → Bool) (chars : List Char) (start stop : Nat) : Prop :=
  start ≤ stop ∧ stop ≤ chars.length ∧
    (∀ j, start ≤ j → j < stop → p (chars.getD j '\x00') = true) ∧
    (stop = chars.length ∨ p (chars.getD stop '\x00') = false)

theorem skipBackWhile_isMaxRunBack (p : Char → Bool) (chars : List Char) (i : Nat) :
    isMaxRunBack p chars i (skipBackWhile p chars i) :=
  ⟨skipBackWhile_le p chars i, skipBackWhile_run p chars i, skipBackWhile_stop p chars i⟩

theorem skipForwardWhile_isMaxRunFwd (p : Char → Bool) (chars : List Char) (i : Nat)
    (h : i ≤ chars.length) : isMaxRunFwd p chars i (skipForwardWhile p chars i) :=
  ⟨skipForwardWhile_ge p chars i, skipForwardWhile_le p chars i h,
    skipForwardWhile_run p chars i, skipForwardWhile_stop p chars i h⟩

/-! ## Preservation of the cursor invariant (claim C1) -/

theorem add_char_inv (s : Input) (ch : Char) (h : cursorInv s) :
    cursorInv (s.add_char ch) := by
  simp only [cursorInv, Input.add_char, charIndexForCharPos] at *
  simp only [List.length_append, List.length_take, List.length_cons, List.length_drop]
  omega

theorem delete_char_inv (s : Input) (h : cursorInv s) :
    cursorInv s.delete_char := by
  simp only [cursorInv, Input.delete_char, charIndexForCharPos] at *
  split
  · omega
  · simp only [List.length_append, List.length_take, List.length_drop]
    omega

theorem move_word_left_inv (s : Input) (h : cursorInv s) :
    cursorInv s.move_word_left := by
  simp only [cursorInv, Input.move_word_left] at *
  split
  · exact h
  · exact Nat.le_trans
      (Nat.le_trans (skipBackWhile_le _ _ _)
        (Nat.le_trans (skipBackWhile_le _ _ _) (Nat.le_refl _))) h

theorem move_word_right_inv (s : Input) (h : cursorInv s) :
    cursorInv s.move_word_right := by
  simp only [cursorInv, Input.move_word_right] at *
  exact skipForwardWhile_le _ _ _ (skipForwardWhile_le _ _ _ h)

theorem apply_suggestion_inv (s : Input) (sug : List Char) (h : cursorInv s) :
    cursorInv (s.apply_suggestion sug) := by
  simp only [cursorInv, Input.apply_suggestion, charIndexForCharPos] at *
  have hstart := skipBackWhile_le is_word_char s.input s.cursor_pos
  split
  · simp only [List.length_append, List.length_take, List.length_cons, List.length_drop]
    omega
  · simp only [List.length_append, List.length_take, List.length_drop]
    omega

theorem applyEditOp_inv (s : Input) (op : EditOp) (h : cursorInv s) :
    cursorInv (applyEditOp s op) := by
  cases op with
  | addChar ch => exact add_char_inv s ch h
  | deleteChar => exact delete_char_inv s h
  | clearBuf => simp [cursorInv, applyEditOp, Input.clear]
  | moveStart => simp [cursorInv, applyEditOp, Input.move_cursor_start]
  | moveEnd => simp [cursorInv, applyEditOp, Input.move_cursor_end]
  | moveLeft =>
    simp only [cursorInv, applyEditOp, Input.move_cursor_left] at *
    split
    · exact Nat.le_trans (Nat.sub_le _ _) h
    · exact h
  | moveRight =>
    simp only [cursorInv, applyEditOp, Input.move_cursor_right] at *
    split
    · next h' => exact Nat.succ_le_of_lt h'
    · exact h
  | wordLeft => exact move_word_left_inv s h
  | wordRight => exact move_word_right_inv s h
  | applySugg sug => exact apply_suggestion_inv s sug h

theorem foldl_editOps_inv (ops : List EditOp) :
    ∀ s : Input, cursorInv s → cursorInv (ops.foldl applyEditOp s) := by
  induction ops with
  | nil => intro s h; exact h
  | cons op rest ih =>
    intro s h
    exact ih (applyEditOp s op) (applyEditOp_inv s op h)

/-- C1: for every sequence of editor-buffer operations (add_char, delete_char,
clear, cursor moves, word moves, apply_suggestion) starting from the empty
buffer, the cursor position satisfies `0 ≤ cursor_pos ≤ number of codepoints`
of the buffer text (positions count codepoints, as in the model). -/
theorem C1_cursor_invariant (ops : List EditOp) :
    0 ≤ (runEditOps ops).cursor_pos ∧
      (runEditOps ops).cursor_pos ≤ (runEditOps ops).input.length :=
  ⟨Nat.zero_le _, foldl_editOps_inv ops Input.new (Nat.le_refl 0)⟩

/-! ## Insert-then-delete round trip (claim C8) -/

theorem insert_delete_roundtrip (l : List Char) (c : Nat) (ch : Char)
    (h : c ≤ l.length) :
    (Input.delete_char (Input.add_char ⟨l, c⟩ ch)) = ⟨l, c⟩ := by
  simp only [Input.add_char, Input.delete_char, charIndexForCharPos,
    Nat.min_eq_left h]
  simp only [Nat.add_one_ne_zero, if_false]
  have hlen : (l.take c ++ ch :: l.drop c).length = l.length + 1 := by
    simp only [List.length_append, List.length_take, List.length_cons,
      List.length_drop]
    omega
  have htk : (l.take c).length = c := by simp [List.length_take]; omega
  have h1 : min (c + 1 - 1) (l.take c ++ ch :: l.drop c).length = c := by
    rw [hlen]; omega
  have h2 : min (c + 1) (l.take c ++ ch :: l.drop c).length = c + 1 := by
    rw [hlen]; omega
  rw [h1, h2]
  congr 1
  · rw [List.take_append_eq_append_take, htk, Nat.sub_self c, List.take_zero,
      List.append_nil, List.take_take, Nat.min_self,
      List.drop_append_eq_append_drop, htk]
    have : c + 1 - c = 1 := by omega
    rw [List.drop_eq_nil_of_le (by omega : (l.take c).length ≤ c + 1), this]
    simp [List.take_append_drop]

/-- C8: for every buffer text, every codepoint offset `c ≤ len(text)` and every
character, setting the cursor to `c`, inserting the character and then deleting
before the cursor restores the original text and leaves the cursor at `c`. -/
theorem C8_insert_delete_restores (l : List Char) (c : Nat) (ch : Char)
    (h : c ≤ l.length) :
    (Input.delete_char (Input.add_char ⟨l, c⟩ ch)) = ⟨l, c⟩ :=
  insert_delete_roundtrip l c ch h

/-- Witness for C8 at the buffer `"héllo"`, cursor 2, inserting `'x'`. -/
theorem C8_insert_delete_restores_witness :
    2 ≤ ("héllo".data).length ∧
      (Input.delete_char (Input.add_char ⟨"héllo".data, 2⟩ 'x')) = ⟨"héllo".data, 2⟩ :=
  ⟨by decide, C8_insert_delete_restores "héllo".data 2 'x' (by decide)⟩

/-! ## Word-jump semantics (claim C9) -/

theorem move_word_left_eq (s : Input) :
    s.move_word_left.input = s.input ∧
      s.move_word_left.cursor_pos =
        skipBackWhile is_word_char s.input
          (skipBackWhile rustIsWhitespace s.input s.cursor_pos) := by
  simp only [Input.move_word_left]
  split
  · next hc => exact ⟨rfl, by rw [hc]; rfl⟩
  · exact ⟨rfl, rfl⟩

theorem move_word_right_eq (s : Input) :
    s.move_word_right.input = s.input ∧
      s.move_word_right.cursor_pos =
        skipForwardWhile rustIsWhitespace s.input
          (skipForwardWhile is_word_char s.input s.cursor_pos) :=
  ⟨rfl, rfl⟩

/-- C9 counterexample: on the buffer `" a"` with the cursor at 0, `move_word_right`
does not first skip the maximal whitespace run and then the maximal word run (the
order the claim states, expressed by the forward scans composed in that order):
the code moves the cursor to 1, the claimed order would move it to 2. -/
theorem C9_counterexample :
    ¬ (Input.move_word_right ⟨" a".data, 0⟩ =
        { input := " a".data,
          cursor_pos := skipForwardWhile is_word_char " a".data
            (skipForwardWhile rustIsWhitespace " a".data 0) }) := by
  decide

/-- C9 (amended): `move_word_left` first skips, leftwards, a maximal run of
whitespace and then a maximal run of word characters; `move_word_right` first
skips, rightwards, a maximal run of word characters and then a maximal run of
whitespace (the two directions use opposite orders).  Neither changes the text. -/
theorem C9_word_moves_maximal_runs (s : Input) (h : cursorInv s) :
    (s.move_word_left.input = s.input ∧
      isMaxRunBack rustIsWhitespace s.input s.cursor_pos
        (skipBackWhile rustIsWhitespace s.input s.cursor_pos) ∧
      isMaxRunBack is_word_char s.input
        (skipBackWhile rustIsWhitespace s.input s.cursor_pos)
        s.move_word_left.cursor_pos) ∧
    (s.move_word_right.input = s.input ∧
      isMaxRunFwd is_word_char s.input s.cursor_pos
        (skipForwardWhile is_word_char s.input s.cursor_pos) ∧
      isMaxRunFwd rustIsWhitespace s.input
        (skipForwardWhile is_word_char s.input s.cursor_pos)
        s.move_word_right.cursor_pos) := by
  obtain ⟨hli, hlc⟩ := move_word_left_eq s
  obtain ⟨hri, hrc⟩ := move_word_right_eq s
  refine ⟨⟨hli, skipBackWhile_isMaxRunBack _ _ _, ?_⟩,
          ⟨hri, skipForwardWhile_isMaxRunFwd _ _ _ h, ?_⟩⟩
  · rw [hlc]; exact skipBackWhile_isMaxRunBack _ _ _
  · rw [hrc]; exact skipForwardWhile_isMaxRunFwd _ _ _ (skipForwardWhile_le _ _ _ h)

/-- Witness for C9 at the buffer `"ab cd"` with the cursor at 5. -/
theorem C9_word_moves_maximal_runs_witness :
    5 ≤ ("ab cd".data).length ∧
      (((Input.mk "ab cd".data 5).move_word_left.input = "ab cd".data ∧
        isMaxRunBack rustIsWhitespace "ab cd".data 5
          (skipBackWhile rustIsWhitespace "ab cd".data 5) ∧
        isMaxRunBack is_word_char "ab cd".data
          (skipBackWhile rustIsWhitespace "ab cd".data 5)
          (Input.mk "ab cd".data 5).move_word_left.cursor_pos) ∧
       ((Input.mk "ab cd".data 5).move_word_right.input = "ab cd".data ∧
        isMaxRunFwd is_word_char "ab cd".data 5
          (skipForwardWhile is_word_char "ab cd".data 5) ∧
        isMaxRunFwd rustIsWhitespace "ab cd".data
          (skipForwardWhile is_word_char "ab cd".data 5)
          (Input.mk "ab cd".data 5).move_word_right.cursor_pos)) :=
  ⟨by decide, C9_word_moves_maximal_runs ⟨"ab cd".data, 5⟩ (by decide)⟩

/-! ## Applying a suggestion (claim C7) -/

/-- Whether `apply_suggestion` appends one space: the character immediately after
the inserted text (i.e. the character that was at the cursor before the edit) is
absent (end of buffer) or is not whitespace. -/
def appendsSpace (s : Input) : Bool :=
  match (s.input.drop s.cursor_pos).head? with
  | some c => !(rustIsWhitespace c)
  | none => true

theorem bool_not_match_whitespace (o : Option Char) :
    (!(match o with | some c => rustIsWhitespace c | none => false)) =
      (match o with | some c => !(rustIsWhitespace c) | none => true) := by
  cases o <;> rfl

/-- C7: `apply_suggestion` replaces exactly the maximal word-character run ending
at the cursor with the candidate text, places the cursor at the end of the
inserted text, and appends one space (advancing the cursor over it) exactly when
the character immediately after the new cursor position is absent or not
whitespace. -/
theorem C7_apply_suggestion (s : Input) (sug : List Char) (h : cursorInv s) :
    isMaxRunBack is_word_char s.input s.cursor_pos
      (skipBackWhile is_word_char s.input s.cursor_pos) ∧
    s.apply_suggestion sug =
      { input := s.input.take (skipBackWhile is_word_char s.input s.cursor_pos) ++ sug ++
          (if appendsSpace s then [' '] else []) ++ s.input.drop s.cursor_pos,
        cursor_pos := skipBackWhile is_word_char s.input s.cursor_pos + sug.length +
          (if appendsSpace s then 1 else 0) } := by
  refine ⟨skipBackWhile_isMaxRunBack _ _ _, ?_⟩
  have hst : skipBackWhile is_word_char s.input s.cursor_pos ≤ s.cursor_pos :=
    skipBackWhile_le _ _ _
  simp only [cursorInv] at h
  simp only [Input.apply_suggestion, charIndexForCharPos]
  set st := skipBackWhile is_word_char s.input s.cursor_pos with hstdef
  have h1 : min st s.input.length = st := by omega
  have h2 : min s.cursor_pos s.input.length = s.cursor_pos := by omega
  rw [h1, h2]
  set L := s.input.take st ++ sug ++ s.input.drop s.cursor_pos with hL
  have hfront : (s.input.take st ++ sug).length = st + sug.length := by
    simp only [List.length_append, List.length_take]
    omega
  have hLassoc : L = (s.input.take st ++ sug) ++ s.input.drop s.cursor_pos := by
    rw [hL, List.append_assoc]
  have hlenL : st + sug.length ≤ L.length := by
    rw [hLassoc, List.length_append, hfront]
    omega
  have h3 : min (st + sug.length) L.length = st + sug.length := by omega
  have hdropL : L.drop (st + sug.length) = s.input.drop s.cursor_pos := by
    rw [hLassoc, List.drop_left' hfront]
  have htakeL : L.take (st + sug.length) = s.input.take st ++ sug := by
    rw [hLassoc, List.take_left' hfront]
  rw [h3, hdropL, htakeL, bool_not_match_whitespace]
  show (if appendsSpace s = true then _ else _) = _
  by_cases hA : appendsSpace s
  · rw [if_pos hA, if_pos hA, if_pos hA]
    simp [List.append_assoc]
  · rw [if_neg hA, if_neg hA, if_neg hA]
    simp [List.append_assoc, hL]

/-- Witness for C7: applying `"SELECT"` to the buffer `"SEL"` with the cursor at 3,
which yields the buffer `"SELECT "` with the cursor at 7. -/
theorem C7_apply_suggestion_witness :
    3 ≤ ("SEL".data).length ∧
      (Input.apply_suggestion ⟨"SEL".data, 3⟩ "SELECT".data = ⟨"SELECT ".data, 7⟩) ∧
      (isMaxRunBack is_word_char "SEL".data 3 (skipBackWhile is_word_char "SEL".data 3) ∧
        Input.apply_suggestion ⟨"SEL".data, 3⟩ "SELECT".data =
          { input := "SEL".data.take (skipBackWhile is_word_char "SEL".data 3) ++
              "SELECT".data ++
              (if appendsSpace ⟨"SEL".data, 3⟩ then [' '] else []) ++ "SEL".data.drop 3,
            cursor_pos := skipBackWhile is_word_char "SEL".data 3 + "SELECT".data.length +
              (if appendsSpace ⟨"SEL".data, 3⟩ then 1 else 0) }) := by
  have hmain := C7_apply_suggestion ⟨"SEL".data, 3⟩ "SELECT".data (by decide)
  exact ⟨by decide, by decide, hmain⟩

/-! ## The completion classifier (`App::update_context_suggestions`, claim C2)

`src/ui/app.rs` lines 517-609.  The classifier reads the buffer text and cursor,
extracts the token to the left of the cursor (skipping trailing whitespace
first), lowercases the text strictly before the token, and dispatches on its
suffix.  The outcome is which suggestion list (if any) is pushed to the input
component; the constructors record which branch of the if-chain fired. -/

/-- The caches the classifier consults: cached database names, table names of
the current database, and the per-table column cache
(`App::table_columns`, a `HashMap`, modelled as an association list; its values
are only ever merged through a sorted set, so iteration order is irrelevant). -/
structure CompletionEnv where
  databases : List (List Char)
  tables : List (List Char)
  table_columns : List (List Char × List (List Char))
deriving DecidableEq, Repr

inductive SuggestionUpdate
  /-- the `use ` branch: `set_external_suggestions` with filtered database names -/
  | database (items : List (List Char))
  /-- the `from `/`join `/`desc `/`describe ` branch: filtered table names -/
  | table (items : List (List Char))
  /-- the `where `/`and `/`or `/dotted-token branch: column names -/
  | column (items : List (List Char))
  /-- the fallthrough branch (built-in SQL keyword suggestions); the flag is
  `true` iff the token is empty (popup shown) and `false` otherwise (hidden) -/
  | keywordDefault (tokenEmpty : Bool)
deriving DecidableEq, Repr

/-- The candidate filter used by every branch:
`token.is_empty() || name.to_lowercase().starts_with(&token.to_lowercase())`. -/
def nameMatchesToken (token name : List Char) : Bool :=
  token.isEmpty || (asciiToLower token).isPrefixOf (asciiToLower name)

/-- Lexicographic (codepoint) order on names, matching Rust `String` order
(UTF-8 byte order coincides with codepoint order). -/
def charListLe (a b : List Char) : Bool :=
  match a, b with
  | [], _ => true
  | _ :: _, [] => false
  | a :: as, b :: bs => if a < b then true else if b < a then false else charListLe as bs

def insertSorted (x : List Char) : List (List Char) → List (List Char)
  | [] => [x]
  | y :: ys => if charListLe x y then x :: y :: ys else y :: insertSorted x ys

/-- Model of collecting names into a `BTreeSet` and iterating it: the
deduplicated, ascending list. -/
def sortedDedup (l : List (List Char)) : List (List Char) :=
  l.dedup.foldr insertSorted []

/-- Models `App::update_context_suggestions` (`src/ui/app.rs` lines 517-609), as the
pure classification decision (the `InputMode::SQL` guard at entry is assumed:
classification only happens in SQL mode). -/
def update_context_suggestions (env : CompletionEnv) (input : List Char)
    (cursor_pos : Nat) : SuggestionUpdate :=
  let chars := input
  let i := skipBackWhile rustIsWhitespace chars cursor_pos
  let start := skipBackWhile appTokenChar chars i
  let token := (chars.take i).drop start
  let before := chars.take start
  let before_lower := asciiToLower before
  if ("use ".data).isSuffixOf before_lower then
    .database (env.databases.filter (nameMatchesToken token))
  else if ["from ".data, "join ".data, "desc ".data, "describe ".data].any
      (fun t => t.isSuffixOf before_lower) then
    .table (env.tables.filter (nameMatchesToken token))
  else
    let is_where_context := ["where ".data, "and ".data, "or ".data].any
      (fun t => t.isSuffixOf before_lower)
    let dot_context := token.getLast? = some '.'
    if is_where_context ∨ dot_context then
      let table_prefix_opt :=
        if dot_context then
          let tbl := (token.reverse.dropWhile (fun c => c = '.')).reverse
          if tbl ≠ [] then some tbl else none
        else none
      match table_prefix_opt with
      | some tbl =>
        -- cached table: its columns; uncached: the empty list (which
        -- `set_external_suggestions` treats as "clear and hide")
        .column ((env.table_columns.lookup tbl).getD [])
      | none =>
        let merged := sortedDedup ((env.table_columns.map Prod.snd).flatten)
        if merged ≠ [] then
          .column (merged.filter (nameMatchesToken token))
        else
          .keywordDefault token.isEmpty
    else
      .keywordDefault token.isEmpty

/-- A concrete cache environment for the C2 scenarios. -/
def envC2 : CompletionEnv :=
  { databases := ["mydb".data, "test".data],
    tables := ["users".data, "use_log".data, "orders".data],
    table_columns := [] }

/-- C2 counterexample: with the caches of `envC2`,
(a) on `"SELECT * FROM use"` with the cursor at the end (offset 17) the
classifier does NOT take the keyword/default branch (the text before the token
is `"SELECT * FROM "`, which ends in `"from "`, so the table branch fires), and
(b) on `"USE "` with the cursor at the end (offset 4) it does NOT classify as
`Database` with all cached database names (the token extraction first skips the
trailing space, so the token is `"USE"` and the text before it is empty). -/
theorem C2_counterexample :
    (¬ ∃ b, update_context_suggestions envC2 "SELECT * FROM use".data 17 =
        .keywordDefault b) ∧
    ¬ (update_context_suggestions envC2 "USE ".data 4 = .database envC2.databases) := by
  decide

/-- C2 (amended): with the caches of `envC2`, on `"SELECT * FROM use"` with the
cursor at the end the classifier takes the Table branch, with candidates the
cached table names whose lowercased form starts with `"use"`; and on `"USE "`
with the cursor at the end it takes the keyword/default branch with a non-empty
token (suggestions hidden), not the Database branch. -/
theorem C2_classification :
    update_context_suggestions envC2 "SELECT * FROM use".data 17 =
      .table ["users".data, "use_log".data] ∧
    update_context_suggestions envC2 "USE ".data 4 = .keywordDefault false := by
  decide

/-! ## Cell-value coercion (claim C3)

`DatabaseQueries::get_cell_value_as_string` (`src/db/queries.rs` 355-404) and
`MySqlAdapter::get_cell_value_as_string` (`src/db/adapters/mysql.rs` 23-34). -/

structure NaiveDateTime where
  year : Nat
  month : Nat
  day : Nat
  hour : Nat
  minute : Nat
  second : Nat
deriving DecidableEq, Repr

structure NaiveDate where
  year : Nat
  month : Nat
  day : Nat
deriving DecidableEq, Repr

structure NaiveTime where
  hour : Nat
  minute : Nat
  second : Nat
deriving DecidableEq, Repr

def pad2 (n : Nat) : String := if n < 10 then "0" ++ toString n else toString n

def pad4 (n : Nat) : String :=
  if n < 10 then "000" ++ toString n
  else if n < 100 then "00" ++ toString n
  else if n < 1000 then "0" ++ toString n
  else toString n

/-- chrono format string `%Y-%m-%d %H:%M:%S`. -/
def formatDateTime (v : NaiveDateTime) : String :=
  pad4 v.year ++ "-" ++ pad2 v.month ++ "-" ++ pad2 v.day ++ " " ++
    pad2 v.hour ++ ":" ++ pad2 v.minute ++ ":" ++ pad2 v.second

/-- chrono format string `%Y-%m-%d`. -/
def formatDate (v : NaiveDate) : String :=
  pad4 v.year ++ "-" ++ pad2 v.month ++ "-" ++ pad2 v.day

/-- chrono format string `%H:%M:%S`. -/
def formatTime (v : NaiveTime) : String :=
  pad2 v.hour ++ ":" ++ pad2 v.minute ++ ":" ++ pad2 v.second

/-- One database cell, represented by the outcomes of the fallible typed-get
attempts the driver offers (`row.try_get::<T>`); `none` means the typed get
fails for that type (e.g. every field is `none` for a NULL cell).  Types whose
rendering is performed by external library code — f64 `Display`, lossy UTF-8
decoding of raw bytes, `serde_json::Value` serialization — are carried in
already-rendered form, because the coercion returns those renderings unchanged
(for bytes, `String::from_utf8` followed by `from_utf8_lossy` on failure is the
same function as `from_utf8_lossy` alone, which is what is stored). -/
structure MySqlCell where
  asString : Option String
  asI64 : Option Int
  asF64 : Option String
  asBool : Option Bool
  asDateTime : Option NaiveDateTime
  asDate : Option NaiveDate
  asTime : Option NaiveTime
  asBytes : Option String
  asJson : Option String
deriving DecidableEq, Repr

/-- Models `MySqlAdapter::get_cell_value_as_string` (`src/db/adapters/mysql.rs` 23-34):
the if-let chain over typed gets, infallible, with `"NULL"` as final fallback. -/
def MySqlAdapter.get_cell_value_as_string (c : MySqlCell) : String :=
  match c.asString with
  | some v => v
  | none =>
  match c.asI64 with
  | some v => toString v
  | none =>
  match c.asF64 with
  | some v => v
  | none =>
  match c.asBool with
  | some v => if v then "1" else "0"
  | none =>
  match c.asDateTime with
  | some v => formatDateTime v
  | none =>
  match c.asDate with
  | some v => formatDate v
  | none =>
  match c.asTime with
  | some v => formatTime v
  | none =>
  match c.asBytes with
  | some v => v
  | none =>
  match c.asJson with
  | some v => v
  | none => "NULL"

/-- Models `DatabaseQueries::get_cell_value_as_string` (`src/db/queries.rs` 355-404):
the same chain, but wrapped in `anyhow::Result` — every return site is `Ok`. -/
def DatabaseQueries.get_cell_value_as_string (c : MySqlCell) : Except String String :=
  match c.asString with
  | some v => .ok v
  | none =>
  match c.asI64 with
  | some v => .ok (toString v)
  | none =>
  match c.asF64 with
  | some v => .ok v
  | none =>
  match c.asBool with
  | some v => .ok (if v then "1" else "0")
  | none =>
  match c.asDateTime with
  | some v => .ok (formatDateTime v)
  | none =>
  match c.asDate with
  | some v => .ok (formatDate v)
  | none =>
  match c.asTime with
  | some v => .ok (formatTime v)
  | none =>
  match c.asBytes with
  | some v => .ok v
  | none =>
  match c.asJson with
  | some v => .ok v
  | none => .ok "NULL"

/-- The typed decodings in the order the specification states them:
string, 64-bit integer, 64-bit float, boolean (`"1"`/`"0"`), date-time, date,
time, raw bytes (lossy UTF-8), JSON. -/
def coerceAttempts (c : MySqlCell) : List (Option String) :=
  [c.asString,
   c.asI64.map toString,
   c.asF64,
   c.asBool.map (fun b => if b then "1" else "0"),
   c.asDateTime.map formatDateTime,
   c.asDate.map formatDate,
   c.asTime.map formatTime,
   c.asBytes,
   c.asJson]

/-- Spec-side coercion: the first success among the attempts, in the stated
order, with `"NULL"` when every typed decoding fails. -/
def coerceCellSpec (c : MySqlCell) : String :=
  ((coerceAttempts c).findSome? id).getD "NULL"

theorem adapter_cell_eq_spec (c : MySqlCell) :
    MySqlAdapter.get_cell_value_as_string c = coerceCellSpec c := by
  rcases c with ⟨s, i, f, b, dt, d, t, bs, js⟩
  cases s <;> cases i <;> cases f <;> cases b <;> cases dt <;> cases d <;>
    cases t <;> cases bs <;> cases js <;> rfl

theorem queries_cell_ok (c : MySqlCell) :
    DatabaseQueries.get_cell_value_as_string c =
      .ok (MySqlAdapter.get_cell_value_as_string c) := by
  rcases c with ⟨s, i, f, b, dt, d, t, bs, js⟩
  cases s <;> cases i <;> cases f <;> cases b <;> cases dt <;> cases d <;>
    cases t <;> cases bs <;> cases js <;> rfl

/-- The all-decodings-fail cell (a NULL cell). -/
def nullCell : MySqlCell :=
  ⟨none, none, none, none, none, none, none, none, none⟩

/-- A boolean `true` cell: the string/integer/float gets fail, the boolean get
succeeds. -/
def boolTrueCell : MySqlCell :=
  ⟨none, none, none, some true, none, none, none, none, none⟩

/-- C3: cell-value coercion is total — it always returns `Ok` of the first
success among the typed decodings tried in the fixed order string, i64, f64,
boolean (`"1"`/`"0"`), date-time, date, time, raw bytes, JSON — and when every
typed decoding fails it returns exactly `"NULL"`; a boolean `true` cell
coerces to `"1"`. -/
theorem C3_cell_coercion :
    (∀ c : MySqlCell,
        DatabaseQueries.get_cell_value_as_string c = .ok (coerceCellSpec c)) ∧
    DatabaseQueries.get_cell_value_as_string nullCell = .ok "NULL" ∧
    MySqlAdapter.get_cell_value_as_string boolTrueCell = "1" :=
  ⟨fun c => (queries_cell_ok c).trans (congrArg Except.ok (adapter_cell_eq_spec c)),
   rfl, rfl⟩

/-! ## Raw query execution and result shaping (claim C10) -/

/-- One row of a raw query result: the column names reported by the row's
metadata (`row.columns()`) and the cell at each column index. -/
structure ResultRow where
  columnNames : List String
  cells : List MySqlCell
deriving Repr

/-- Models `DatabaseQueries::execute_query_raw` (`src/db/queries.rs` 325-353), given
the rows the driver returned: an empty row set short-circuits to
`(vec![], vec![])`; otherwise the headers are the column names of the FIRST
row and every row is rendered cell-by-cell. -/
def DatabaseQueries.execute_query_raw (rows : List ResultRow) :
    Except String (List String × List (List String)) :=
  match rows with
  | [] => .ok ([], [])
  | first :: _ => do
    let dataRows ← rows.mapM
      (fun row => row.cells.mapM DatabaseQueries.get_cell_value_as_string)
    return (first.columnNames, dataRows)

/-- Models `MySqlAdapter::execute_query_raw` (`src/db/adapters/mysql.rs` 142-153):
same shape, with the infallible cell renderer. -/
def MySqlAdapter.execute_query_raw (rows : List ResultRow) :
    List String × List (List String) :=
  match rows with
  | [] => ([], [])
  | first :: _ =>
    (first.columnNames,
     rows.map (fun row => row.cells.map MySqlAdapter.get_cell_value_as_string))

theorem mapM_cells_ok (cs : List MySqlCell) :
    cs.mapM DatabaseQueries.get_cell_value_as_string =
      Except.ok (cs.map MySqlAdapter.get_cell_value_as_string) := by
  induction cs with
  | nil => rfl
  | cons c cs ih => rw [List.mapM_cons, queries_cell_ok c, ih]; rfl

theorem mapM_rows_ok (rows : List ResultRow) :
    rows.mapM (fun row => row.cells.mapM DatabaseQueries.get_cell_value_as_string) =
      Except.ok (rows.map
        (fun row => row.cells.map MySqlAdapter.get_cell_value_as_string)) := by
  induction rows with
  | nil => rfl
  | cons r rs ih => rw [List.mapM_cons, mapM_cells_ok, ih]; rfl

/-- C10: a result set of zero rows yields an empty header list together with an
empty row list (in both the `DatabaseQueries` and the `MySqlAdapter` versions),
because headers are taken from the first returned row; for any non-empty result
set the headers are exactly the first row's column names.  A caller therefore
cannot distinguish a rowless query result from a headerless one. -/
theorem C10_empty_result_no_headers :
    DatabaseQueries.execute_query_raw [] = .ok ([], []) ∧
    MySqlAdapter.execute_query_raw [] = ([], []) ∧
    (∀ (first : ResultRow) (rest : List ResultRow),
      DatabaseQueries.execute_query_raw (first :: rest) =
        .ok (first.columnNames,
          (first :: rest).map
            (fun row => row.cells.map MySqlAdapter.get_cell_value_as_string))) := by
  refine ⟨rfl, rfl, fun first rest => ?_⟩
  show (do
    let dataRows ← (first :: rest).mapM
      (fun (row : ResultRow) => row.cells.mapM DatabaseQueries.get_cell_value_as_string)
    return (first.columnNames, dataRows)) = _
  rw [mapM_rows_ok]
  rfl

/-! ## SQL command routing (claim C4)

`App::handle_sql_command` (`src/ui/app.rs` 666-772) and
`App::parse_use_command` (lines 862-875). -/

/-- Rust `str::trim_start` (Unicode whitespace). -/
def trimStart (l : List Char) : List Char := l.dropWhile rustIsWhitespace

/-- Rust `str::trim_end` (Unicode whitespace). -/
def trimEnd (l : List Char) : List Char := (l.reverse.dropWhile rustIsWhitespace).reverse

/-- Rust `str::trim` (Unicode whitespace, both ends). -/
def rustTrim (l : List Char) : List Char := trimEnd (trimStart l)

/-- Models `split_whitespace().next().unwrap_or("")`: the first whitespace-delimited
token (empty when there is none). -/
def firstWord (l : List Char) : List Char :=
  (l.dropWhile rustIsWhitespace).takeWhile (fun c => !rustIsWhitespace c)

/-- Models `App::parse_use_command` (`src/ui/app.rs` 862-875): after trimming, a
case-insensitive `USE ` start, a second whitespace-delimited part with
trailing `;` characters removed and trimmed, which must be non-empty. -/
def parse_use_command (command : List Char) : Option (List Char) :=
  let trimmed := rustTrim command
  if ("USE ".data).isPrefixOf (asciiToUpper trimmed) then
    let afterFirst := (trimmed.dropWhile rustIsWhitespace).dropWhile
      (fun c => !rustIsWhitespace c)
    let second := firstWord afterFirst
    if second ≠ [] then
      let db_name := rustTrim ((second.reverse.dropWhile (fun c => c = ';')).reverse)
      if db_name ≠ [] then some db_name else none
    else none
  else none

inductive SqlRoute
  | useDb (db : List Char)
  | help
  | quitApp
  | query (sql : List Char)
  | nonQuery (sql : List Char)
deriving DecidableEq, Repr

/-- The statement-starting keywords that route to `execute_query_raw`. -/
def queryKeywords : List (List Char) :=
  ["SELECT".data, "SHOW".data, "DESCRIBE".data, "DESC".data, "EXPLAIN".data]

/-- The dispatch of `App::handle_sql_command` on the already-`\G`-stripped
command (`src/ui/app.rs` 709-771): `USE` parsing first, then the help and
exit/quit literals, then the first-keyword query/non-query classification. -/
def routeCommand (command : List Char) : SqlRoute :=
  match parse_use_command command with
  | some db => .useDb db
  | none =>
    if command = "\\h".data ∨ command = "\\help".data then .help
    else if command = "exit".data ∨ command = "quit".data ∨
        command = "\\q".data ∨ command = "\\quit".data then .quitApp
    else
      let first_word := asciiToUpper (firstWord (trimStart command))
      if first_word ∈ queryKeywords then .query command else .nonQuery command

/-- The trailing-`\G` detection block of `App::handle_sql_command`
(`src/ui/app.rs` 682-707): the vertical-output flag, and the command with a
trailing `\G`/`\g` (preceded by optional `;` and ASCII whitespace) removed.
The source scans bytes, but only over ASCII characters, for which byte
positions and codepoint positions coincide. -/
def stripVertical (raw : List Char) : Bool × List Char :=
  let trimmed := trimEnd raw
  let e1 := skipBackWhile isAsciiWhitespace trimmed trimmed.length
  let e2 := if 0 < e1 ∧ trimmed.getD (e1 - 1) '\x00' = ';' then
    skipBackWhile isAsciiWhitespace trimmed (e1 - 1) else e1
  let tail := (trimmed.take e2).drop (e2 - 2)
  if 2 ≤ e2 ∧ (tail = "\\G".data ∨ tail = "\\g".data) then
    let base := trimEnd (trimmed.take (e2 - 2))
    (true, trimEnd ((base.reverse.dropWhile (fun c => c = ';')).reverse))
  else (false, raw)

/-- Models `App::handle_sql_command` (`src/ui/app.rs` 666-772) as the pure routing
decision: `none` for blank input (no action), otherwise the vertical-output
flag and the route of the stripped command. -/
def handle_sql_command (raw : List Char) : Option (Bool × SqlRoute) :=
  if rustTrim raw = [] then none
  else
    let sv := stripVertical raw
    some (sv.1, routeCommand sv.2)

/-- Case-insensitive (ASCII) equality of tokens. -/
def ciEq (a b : List Char) : Prop := asciiToUpper a = asciiToUpper b

/-- The claim's routing condition: the first whitespace-delimited token equals,
case-insensitively, one of SELECT, SHOW, DESCRIBE, DESC, EXPLAIN. -/
def startsWithQueryKeyword (command : List Char) : Prop :=
  ∃ kw ∈ queryKeywords, ciEq (firstWord command) kw

theorem dropWhile_dropWhile (p : Char → Bool) (l : List Char) :
    (l.dropWhile p).dropWhile p = l.dropWhile p := by
  induction l with
  | nil => rfl
  | cons a l ih =>
    by_cases h : p a
    · simp [List.dropWhile_cons, h, ih]
    · simp [List.dropWhile_cons, h]

theorem firstWord_trimStart (command : List Char) :
    firstWord (trimStart command) = firstWord command := by
  simp only [firstWord, trimStart, dropWhile_dropWhile]

theorem startsWithQueryKeyword_iff (command : List Char) :
    startsWithQueryKeyword command ↔
      asciiToUpper (firstWord command) ∈ queryKeywords := by
  constructor
  · rintro ⟨kw, hkw, he⟩
    simp only [queryKeywords, List.mem_cons, List.not_mem_nil, or_false] at hkw
    unfold ciEq at he
    rcases hkw with rfl | rfl | rfl | rfl | rfl <;>
      (rw [he]; decide)
  · intro h
    simp only [queryKeywords, List.mem_cons, List.not_mem_nil, or_false] at h
    rcases h with h | h | h | h | h
    · exact ⟨"SELECT".data, by decide, by unfold ciEq; rw [h]; decide⟩
    · exact ⟨"SHOW".data, by decide, by unfold ciEq; rw [h]; decide⟩
    · exact ⟨"DESCRIBE".data, by decide, by unfold ciEq; rw [h]; decide⟩
    · exact ⟨"DESC".data, by decide, by unfold ciEq; rw [h]; decide⟩
    · exact ⟨"EXPLAIN".data, by decide, by unfold ciEq; rw [h]; decide⟩

/-- C4: once the `USE` / help / exit special forms do not match, a statement is
routed to `execute_query_raw` if and only if its first whitespace-delimited
token is, case-insensitively, one of SELECT, SHOW, DESCRIBE, DESC, EXPLAIN, and
it is routed to `execute_non_query` exactly otherwise. -/
theorem C4_query_routing (command : List Char)
    (hu : parse_use_command command = none)
    (h1 : command ≠ "\\h".data) (h2 : command ≠ "\\help".data)
    (h3 : command ≠ "exit".data) (h4 : command ≠ "quit".data)
    (h5 : command ≠ "\\q".data) (h6 : command ≠ "\\quit".data) :
    (routeCommand command = .query command ↔ startsWithQueryKeyword command) ∧
    (routeCommand command = .nonQuery command ↔ ¬ startsWithQueryKeyword command) := by
  unfold routeCommand
  rw [hu]
  rw [if_neg (by simp [h1, h2]), if_neg (by simp [h3, h4, h5, h6])]
  simp only [firstWord_trimStart]
  by_cases hq : asciiToUpper (firstWord command) ∈ queryKeywords
  · rw [if_pos hq]
    constructor
    · exact ⟨fun _ => (startsWithQueryKeyword_iff command).mpr hq, fun _ => rfl⟩
    · constructor
      · intro h; cases h
      · intro h; exact absurd ((startsWithQueryKeyword_iff command).mpr hq) h
  · rw [if_neg hq]
    constructor
    · constructor
      · intro h; cases h
      · intro h; exact absurd ((startsWithQueryKeyword_iff command).mp h) hq
    · exact ⟨fun _ => fun h => hq ((startsWithQueryKeyword_iff command).mp h),
        fun _ => rfl⟩

/-- Witness for C4 at the statement `"select 1"` (and its classification). -/
theorem C4_query_routing_witness :
    parse_use_command "select 1".data = none ∧
      ((routeCommand "select 1".data = .query "select 1".data ↔
          startsWithQueryKeyword "select 1".data) ∧
       (routeCommand "select 1".data = .nonQuery "select 1".data ↔
          ¬ startsWithQueryKeyword "select 1".data)) :=
  ⟨by decide,
   C4_query_routing "select 1".data (by decide) (by decide) (by decide)
     (by decide) (by decide) (by decide) (by decide)⟩

/-! ## Two-tier schema retrieval (claim C5)

`DatabaseQueries::get_table_schema` (`src/db/queries.rs` 167-177) and
`get_table_schema_simple` (lines 247-282).  The two database round trips are
modelled by their outcomes, passed as parameters. -/

/-- Models `models::SchemaColumn` (`src/models/schema.rs`). -/
structure SchemaColumn where
  name : String
  data_type : String
  is_nullable : Bool
  default_value : Option String
  extra : Option String
  comment : Option String
deriving DecidableEq, Repr

/-- One row of `SHOW COLUMNS FROM`, carrying the column indices
`get_table_schema_simple` reads (0 Field, 1 Type, 2 Null, 4 Default, 5 Extra,
6 Comment), already string-decoded. -/
structure ShowColumnsRow where
  field : String
  typeInfo : String
  nullInfo : String
  defaultValue : Option String
  extra : String
  comment : String
deriving DecidableEq, Repr

/-- The `SchemaColumn` built from one `SHOW COLUMNS` row: the data type is cut
at the first space, `Null` is compared against `"YES"`, and empty
`extra`/`comment` strings become `None`. -/
def simpleColumn (row : ShowColumnsRow) : SchemaColumn :=
  { name := row.field
    data_type := row.typeInfo.takeWhile (fun c => c ≠ ' ')
    is_nullable := row.nullInfo == "YES"
    default_value := row.defaultValue
    extra := if row.extra.isEmpty then none else some row.extra
    comment := if row.comment.isEmpty then none else some row.comment }

/-- Models `DatabaseQueries::get_table_schema_simple` (`src/db/queries.rs` 247-282):
a failed `SHOW COLUMNS` fetch propagates (`?`); otherwise each row is
converted and the table comment is `None` (simple mode cannot obtain one). -/
def get_table_schema_simple (fetched : Except String (List ShowColumnsRow)) :
    Except String (List SchemaColumn × Option String) :=
  match fetched with
  | .error e => .error e
  | .ok rows => .ok (rows.map simpleColumn, none)

/-- Models `DatabaseQueries::get_table_schema` (`src/db/queries.rs` 167-177): run the
detailed information_schema attempt; if it returned `Ok`, return that result;
only otherwise issue the `SHOW COLUMNS` fallback. -/
def get_table_schema
    (detailed : Except String (List SchemaColumn × Option String))
    (simpleFetched : Except String (List ShowColumnsRow)) :
    Except String (List SchemaColumn × Option String) :=
  if detailed.isOk then detailed
  else get_table_schema_simple simpleFetched

/-- C5: (a) when the detailed information_schema attempt succeeds its result is
returned and the outcome does not depend on the fallback at all (the fallback is
not consulted); (b) the `SHOW COLUMNS` fallback is consulted exactly when the
detailed attempt returns an error (the two attempts being sequential); (c) a
successful fallback never carries a table comment. -/
theorem C5_schema_two_tier :
    (∀ (cols : List SchemaColumn) (cmt : Option String)
        (simpleFetched : Except String (List ShowColumnsRow)),
        get_table_schema (.ok (cols, cmt)) simpleFetched = .ok (cols, cmt)) ∧
    (∀ (e : String) (simpleFetched : Except String (List ShowColumnsRow)),
        get_table_schema (.error e) simpleFetched =
          get_table_schema_simple simpleFetched) ∧
    (∀ (rows : List ShowColumnsRow) (cols : List SchemaColumn) (cmt : Option String),
        get_table_schema_simple (.ok rows) = .ok (cols, cmt) → cmt = none) := by
  refine ⟨fun cols cmt sf => rfl, fun e sf => rfl, fun rows cols cmt h => ?_⟩
  simp only [get_table_schema_simple, Except.ok.injEq, Prod.mk.injEq] at h
  exact h.2.symm

/-- A concrete `SHOW COLUMNS` row for the C5 witness. -/
def rowC5 : ShowColumnsRow :=
  { field := "id", typeInfo := "int unsigned", nullInfo := "NO",
    defaultValue := none, extra := "auto_increment", comment := "" }

/-- Witness for C5: each component applied at concrete outcomes; the
hypothesis of component (c) is discharged at the fallback's result on `rowC5`. -/
theorem C5_schema_two_tier_witness :
    get_table_schema (.ok ([], some "tc")) (.ok [rowC5]) = .ok ([], some "tc") ∧
    get_table_schema (.error "denied") (.ok [rowC5]) =
      get_table_schema_simple (.ok [rowC5]) ∧
    (none : Option String) = none :=
  ⟨C5_schema_two_tier.1 [] (some "tc") (.ok [rowC5]),
   C5_schema_two_tier.2.1 "denied" (.ok [rowC5]),
   C5_schema_two_tier.2.2 [rowC5] [simpleColumn rowC5] none rfl⟩

/-! ## The `USE` handler (claim C6)

`App::handle_use_database` (`src/ui/app.rs` 877-915) and the pieces of `App`
state it touches.  The adapter round trips (database list fetch, pool rebuild,
table list fetch) are modelled by their outcomes in `DbEnv`. -/

/-- Models `ContentType` (`src/ui/components/content.rs`). -/
inductive ContentType
  | welcome
  | database
  | tables
  | tableSchema
  | tableData
  | help
  | error
deriving DecidableEq, Repr

/-- The fields of `App` (and its sub-components) that `handle_use_database`
reads or writes: the current database, which database the connection pool is
built for (`rebuild_pool_for_database`), the content view, and the status-bar /
sidebar / input mirrors of the current database. -/
structure AppModel where
  current_db : Option String
  pool_db : Option String
  content_type : ContentType
  content : String
  status_db : Option String
  sidebar_show_databases : Bool
  sidebar_current_db : Option String
  sidebar_tables : List String
  input_current_db : Option String
deriving DecidableEq, Repr

/-- Outcomes of the adapter calls `handle_use_database` can make. -/
structure DbEnv where
  get_databases : Except String (List String)
  rebuild_pool : Except String Unit
  get_tables : String → Except String (List String)

/-- Models `App::load_tables` (`src/ui/app.rs` 780-795). -/
def load_tables (env : DbEnv) (app : AppModel) : AppModel :=
  match app.current_db with
  | none => app
  | some db =>
    match env.get_tables db with
    | .ok tables =>
      { app with
        sidebar_tables := tables,
        content_type := .tables,
        content := "数据库 '" ++ db ++ "' 的表列表" }
    | .error e =>
      { app with content_type := .error, content := "加载表列表失败: " ++ e }

/-- The validation message `handle_use_database` shows for a database missing
from the fetched list. -/
def dbNotExistMsg (db_name : String) : String :=
  "数据库 '" ++ db_name ++ "' 不存在"

/-- Models `App::handle_use_database` (`src/ui/app.rs` 877-915): fetch the database
list (a fetch failure propagates via `?`); if the target is not in the list,
only display the validation message; otherwise rebuild the pool, switch every
current-database mirror, and reload the table list.  (`load_tables` itself
always returns `Ok`, so the success branch always overwrites the content with
the switched-with-count message.) -/
def handle_use_database (env : DbEnv) (db_name : String) (app : AppModel) :
    Except String AppModel :=
  match env.get_databases with
  | .error e => .error e
  | .ok dbs =>
    if ¬ dbs.contains db_name then
      .ok { app with content_type := .error, content := dbNotExistMsg db_name }
    else
      match env.rebuild_pool with
      | .error e =>
        .ok { app with
              content_type := .error,
              content := "切换数据库失败: " ++ e }
      | .ok _ =>
        let app1 := { app with
          current_db := some db_name,
          pool_db := some db_name,
          status_db := some db_name,
          sidebar_show_databases := false,
          sidebar_current_db := some db_name,
          input_current_db := some db_name,
          content_type := ContentType.database,
          content := "已切换到数据库 '" ++ db_name ++ "'，正在加载表..." }
        let app2 := load_tables env app1
        .ok { app2 with
              content_type := ContentType.database,
              content := "已切换到数据库 '" ++ db_name ++ "'，共 " ++
                toString app2.sidebar_tables.length ++ " 个表" }

/-- C6: when the fetched database list does not contain the requested name, the
handler returns the state unchanged except for the content view, which shows the
validation message (`数据库 '<name>' 不存在`) — in particular `current_db` and the
connection pool are untouched, and the result does not depend on the rebuild or
table-fetch outcomes at all (no switch is attempted). -/
theorem C6_use_nonexistent_db (env : DbEnv) (app : AppModel) (db_name : String)
    (dbs : List String) (hdbs : env.get_databases = .ok dbs)
    (hnot : db_name ∉ dbs) :
    handle_use_database env db_name app =
      .ok { app with content_type := .error, content := dbNotExistMsg db_name } := by
  have hc : dbs.contains db_name = false := by
    simpa using hnot
  unfold handle_use_database
  rw [hdbs]
  simp [hc, hnot]

/-- A concrete environment and app state for the C6 witness. -/
def envC6 : DbEnv :=
  { get_databases := .ok ["shop", "blog"],
    rebuild_pool := .ok (),
    get_tables := fun _ => .ok ["t1"] }

def appC6 : AppModel :=
  { current_db := some "shop", pool_db := some "shop",
    content_type := .welcome, content := "",
    status_db := some "shop", sidebar_show_databases := true,
    sidebar_current_db := some "shop", sidebar_tables := ["t1"],
    input_current_db := some "shop" }

/-- Witness for C6: `USE warehouse` with only `shop`/`blog` fetched leaves the
state unchanged apart from the validation-error content. -/
theorem C6_use_nonexistent_db_witness :
    envC6.get_databases = .ok ["shop", "blog"] ∧
    "warehouse" ∉ ["shop", "blog"] ∧
    handle_use_database envC6 "warehouse" appC6 =
      .ok { appC6 with
            content_type := .error,
            content := dbNotExistMsg "warehouse" } :=
  ⟨rfl, by decide,
   C6_use_nonexistent_db envC6 appC6 "warehouse" ["shop", "blog"] rfl (by decide)⟩

end SqlTui
